import Mathlib

/-!
Verification development for the BESS incident-map application (`app.py`).

The application serves a linked card list and leaflet map over a prepared
pandas DataFrame.  The definitions below are a shallow embedding of the
parts of `app.py` that the specification's claims are about:

* `scale_radius` — the marker-radius scaling function (app.py lines 25-32);
  floats are modelled as rationals, `NaN` capacity as `Option.none`, and
  Python's `round(x, 2)` as exact round-half-to-even on rationals.
* the data-preparation pipeline (lines 73-121): sort by date descending,
  assignment of the `index` column, geocoding of at most 10 rows with
  missing coordinates, and `dropna` on the coordinate columns.
* `update_selected_index` (lines 387-399): the server-side selection
  callback; `df.iloc` positional lookup (including Python's negative-index
  semantics) raising `IndexError` out of range is modelled by `SelResult.exn`,
  `PreventUpdate` by `SelResult.preventUpdate`.
* `update_markers` (lines 297-318): the marker re-render callback.  It
  returns a dash `Patch()` on which only `.append` is called, so applying
  its output to the current `marker-layer.children` list concatenates
  (`applyPatch`).
* the clientside callback (lines 321-371): global 300ms debounce via
  `window.lastClickTime`, card border styling, and the camera retry loop
  (`setInterval`, 100ms period, giving up once the attempt counter reaches
  `maxAttempts = 50`).  The retry loop is written with a structural fuel
  argument (`52`, strictly larger than the number of ticks the attempt
  counter allows) so that it evaluates by kernel reduction; the counter
  check stops every run before the fuel can run out.
-/

set_option maxHeartbeats 1000000

/-- Marker colors used by the map renderer (`'blue'` / `'red'` in app.py). -/
inductive Color where
  | blue : Color
  | red : Color
deriving DecidableEq, Repr

/-- Round-half-to-even on rationals, the semantics of Python's built-in
`round` at integer precision: nearest integer, ties to the even one. -/
def rhe (q : ℚ) : ℤ :=
  if q - (⌊q⌋ : ℚ) < 1 / 2 then ⌊q⌋
  else if 1 / 2 < q - (⌊q⌋ : ℚ) then ⌊q⌋ + 1
  else if ⌊q⌋ % 2 = 0 then ⌊q⌋ else ⌊q⌋ + 1

/-- Python's `round(x, 2)`: round half-to-even at two decimal places. -/
def roundQ2 (x : ℚ) : ℚ :=
  ((rhe (x * 100) : ℤ) : ℚ) / 100

/-- Embedding of `scale_radius` (app.py lines 25-32).  `capacity = none`
models a NaN capacity (`pd.isna`).  The caller resolves the Python default
`max_capacity=None` to the store-wide maximum, exactly as line 27 does. -/
def scale_radius (capacity : Option ℚ) (min_radius max_radius max_capacity : ℚ) : ℚ :=
  if max_capacity = 0 then min_radius
  else
    match capacity with
    | none => min_radius
    | some c =>
      if c ≤ 0 then min_radius
      else roundQ2 (min_radius + (max_radius - min_radius) * (c / max_capacity))

/-- One prepared record of the store: the columns of `df` the selection
engine reads (`latitude`, `longitude`, `Capacity (MW)` after `fillna(0)`). -/
structure Record where
  lat : ℚ
  lon : ℚ
  capacity : ℚ
deriving DecidableEq, Repr

/-- The maximum of the `Capacity (MW)` column (`df['Capacity (MW)'].max()`);
the `1` default mirrors line 27's fallback for a missing column. -/
def storeMax (s : List Record) : ℚ :=
  ((s.map Record.capacity).max?).getD 1

/-- A rendered circle marker (`dl.CircleMarker`), with its pattern-matching
id index, center, radius, stroke and fill color, and fill opacity. -/
structure Marker where
  id : ℕ
  center : ℚ × ℚ
  radius : ℚ
  color : Color
  fillColor : Color
  fillOpacity : ℚ
deriving DecidableEq, Repr

/-- The marker built for position `i` by `update_markers` (lines 306-316):
radius `scale_radius(capacity)`, multiplied by `1.5` and recolored red when
`i == selected_index`, blue otherwise. -/
def mkMarker (maxCap : ℚ) (selected : ℤ) (i : ℕ) (r : Record) : Marker :=
  let radius := scale_radius (some r.capacity) 5 20 maxCap
  let color := if (i : ℤ) = selected then Color.red else Color.blue
  { id := i
    center := (r.lat, r.lon)
    radius := if (i : ℤ) = selected then radius * (3 / 2) else radius
    color := color
    fillColor := color
    fillOpacity := 4 / 5 }

/-- Embedding of `update_markers` (lines 297-318): the list of markers the
callback builds with `for i in range(len(df))`, pairing each position with
its record (`df.iloc[i]`).  In dash this list is a `Patch()` that is only
ever `.append`ed to, see `applyPatch`. -/
def update_markers (s : List Record) (selected : ℤ) : List Marker :=
  s.enum.map (fun p => mkMarker (storeMax s) selected p.1 p.2)

/-- The initial `marker-layer` children (lines 275-285): one blue marker per
record at its unscaled radius. -/
def initialMarkers (s : List Record) : List Marker :=
  s.enum.map (fun p =>
    { id := p.1
      center := (p.2.lat, p.2.lon)
      radius := scale_radius (some p.2.capacity) 5 20 (storeMax s)
      color := Color.blue
      fillColor := Color.blue
      fillOpacity := 4 / 5 })

/-- Applying the `Patch()` produced by `update_markers` to the current
`marker-layer.children`: every marker was added with `patched_markers.append`,
so the patch concatenates the new markers onto the existing children. -/
def applyPatch (children patch : List Marker) : List Marker :=
  children ++ patch

/-- Outcome of the `update_selected_index` callback: `preventUpdate` for the
`raise PreventUpdate` branch (a silent no-op), `ok i` for a normal return of
the clicked index, `exn` when the callback raises (the `IndexError` from
`df.iloc[clicked_index]` on line 398). -/
inductive SelResult where
  | preventUpdate : SelResult
  | ok : ℤ → SelResult
  | exn : SelResult
deriving DecidableEq, Repr

/-- Pandas positional lookup `df.iloc[i]`: valid for `0 ≤ i < n` and, with
Python negative-index semantics, for `-n ≤ i < 0` (position `n + i`);
anything else raises `IndexError`, modelled as `none`. -/
def ilocGet (s : List Record) (i : ℤ) : Option Record :=
  if 0 ≤ i then s.get? i.toNat
  else if 0 ≤ i + (s.length : ℤ) then s.get? (i + (s.length : ℤ)).toNat
  else none

/-- Embedding of `update_selected_index` (lines 387-399): `PreventUpdate`
when nothing triggered, otherwise the clicked index is looked up with
`df.iloc` (line 398's log statement) — which raises out of range — and
returned unchanged as the new `selected-index` data. -/
def update_selected_index (s : List Record) (triggered : Option ℤ) : SelResult :=
  match triggered with
  | none => SelResult.preventUpdate
  | some i =>
    match ilocGet s i with
    | some _ => SelResult.ok i
    | none => SelResult.exn

/-- The fallback five-record dataset built on lines 127-140 when the
spreadsheet cannot be loaded (Moss Landing, Surprise, Escondido, Liverpool,
Tokyo), with its `Lat`/`Long` coordinates (`36.5786`, `-121.6954`, … written
as exact fractions) and its `Capacity (MW)` values. -/
def store5 : List Record :=
  [ { lat := 365786 / 10000, lon := -1216954 / 10000, capacity := 400 }
  , { lat := 336391 / 10000, lon := -1124128 / 10000, capacity := 100 }
  , { lat := 331192 / 10000, lon := -1170864 / 10000, capacity := 200 }
  , { lat := 534084 / 10000, lon := -29916 / 10000, capacity := 50 }
  , { lat := 356762 / 10000, lon := 1396503 / 10000, capacity := 300 } ]

/-- One server-side processing of a selection click `(time, index)` —
`update_selected_index` followed, on success, by the `update_markers`
re-render whose patch is appended to the marker layer.  Neither callback
reads the event time: the server side has no debounce. -/
def serverStep (s : List Record) (st : ℤ × List Marker) (ev : ℕ × ℤ) : ℤ × List Marker :=
  match update_selected_index s (some ev.2) with
  | SelResult.ok i => (i, applyPatch st.2 (update_markers s i))
  | _ => st

/-- Fold of `serverStep` over a timed click sequence, from an initial
selection state (`-1` at startup, line 289) and marker layer. -/
def runServer (s : List Record) (init : ℤ × List Marker) (evs : List (ℕ × ℤ)) :
    ℤ × List Marker :=
  evs.foldl (serverStep s) init

/-- A viewport command: `window.dash_leaflet_map.setView([lat, lng], zoom)`
(line 352, always with zoom level 8). -/
inductive Cmd where
  | setView : ℚ × ℚ → ℕ → Cmd
deriving DecidableEq, Repr

/-- The camera retry loop of the clientside callback (lines 347-360),
transcribed tick by tick.  `avail k` is what the guard
`window.dash_leaflet_map && window.dash_clientside_data &&
window.dash_clientside_data[selected_index]` finds at the tick where the
`attempts` counter holds `k`: the selected record's coordinates once the
map and the injected table are ready, `none` before.  Each tick fires the
`setView` and clears the interval when ready, otherwise clears it once
`attempts >= maxAttempts` (`50`).  The first argument is structural fuel;
every run returns before consuming 52 frames because the counter check
stops at `k = 50`. -/
def cameraRetryAux (avail : ℕ → Option (ℚ × ℚ)) : ℕ → ℕ → Option (ℕ × (ℚ × ℚ))
  | 0, _ => none
  | fuel + 1, k =>
    match avail k with
    | some c => some (k, c)
    | none => if 50 ≤ k then none else cameraRetryAux avail fuel (k + 1)

/-- The complete retry loop started by one callback invocation: ticks from
attempt counter `0`, returning the firing tick and coordinates, or `none`
on timeout. -/
def cameraRetry (avail : ℕ → Option (ℚ × ℚ)) : Option (ℕ × (ℚ × ℚ)) :=
  cameraRetryAux avail 52 0

/-- The viewport commands one started retry loop eventually issues: one
`setView(coords, 8)` if it fires, nothing on timeout. -/
def cameraCmds (avail : ℕ → Option (ℚ × ℚ)) : List Cmd :=
  match cameraRetry avail with
  | some p => [Cmd.setView p.2 8]
  | none => []

/-- The card borders computed by the clientside callback (lines 333-339):
position `i` is highlighted (`'2px solid red'`, here `true`) exactly when
`i === selected_index`. -/
def cardBorders (n : ℕ) (sel : ℤ) : List Bool :=
  (List.range n).map (fun i : ℕ => ((i : ℤ) == sel))

/-- Result of one clientside callback invocation (lines 321-371):
the value of `window.lastClickTime` afterwards, the card borders it
returns (`none` for `window.dash_clientside.no_update`), and the viewport
commands the retry loop it may start will issue. -/
structure ClientRes where
  lastClick : ℕ
  borders : Option (List Bool)
  cmds : List Cmd
deriving DecidableEq, Repr

/-- Embedding of the clientside callback (lines 321-371).  The debounce
guard drops the whole invocation (`no_update`, clock untouched) when less
than 300ms passed since `window.lastClickTime`; an accepted invocation
resets the clock, restyles all cards against its `selected_index` input,
and — only when `selected_index >= 0` — starts the camera retry loop.
`avail` is the readiness schedule the started loop will observe. -/
def clientCallback (lastClick now : ℕ) (sel : ℤ) (n : ℕ)
    (avail : ℕ → Option (ℚ × ℚ)) : ClientRes :=
  if now - lastClick < 300 then
    { lastClick := lastClick, borders := none, cmds := [] }
  else
    { lastClick := now
      borders := some (cardBorders n sel)
      cmds := if 0 ≤ sel then cameraCmds avail else [] }

/-- A raw spreadsheet row as the pipeline sees it after column coercion:
its event date (order key of the `sort_values` on line 74), its parsed
coordinates (`none` when `latitude`/`longitude` came out NaN), and its raw
capacity (`none` when NaN before `fillna(0)`). -/
structure Row where
  date : ℤ
  coords : Option (ℚ × ℚ)
  capacity : Option ℚ
deriving DecidableEq, Repr

/-- Insertion of a row into a list sorted by descending date, keeping it
after all rows with a date at least as late (a stable model of
`sort_values(by='Event Date', ascending=False)`). -/
def insertDesc (r : Row) : List Row → List Row
  | [] => [r]
  | x :: xs => if r.date ≤ x.date then x :: insertDesc r xs else r :: x :: xs

/-- Sort rows by event date, newest first (line 74). -/
def sortByDateDesc (rows : List Row) : List Row :=
  rows.foldr insertDesc []

/-- The geocoding pass (lines 110-118): walk the indexed rows in order and,
for the first 10 rows whose coordinates are missing, attempt `geo`
(`geocode_location`, which yields `none` on failure); later missing rows
are left untouched.  The budget is spent per attempt, successful or not. -/
def geocodePass (geo : Row → Option (ℚ × ℚ)) : ℕ → List (ℕ × Row) → List (ℕ × Row)
  | _, [] => []
  | budget, (i, r) :: rest =>
    match r.coords with
    | some _ => (i, r) :: geocodePass geo budget rest
    | none =>
      if budget = 0 then (i, r) :: geocodePass geo 0 rest
      else (i, { r with coords := geo r }) :: geocodePass geo (budget - 1) rest

/-- A prepared record together with the value the `index` column was given
on line 75 — the identifier that the cards (and their pattern-matching ids)
carry. -/
structure PrepRecord where
  idx : ℕ
  lat : ℚ
  lon : ℚ
  capacity : ℚ
deriving DecidableEq, Repr

/-- Embedding of the data-preparation pipeline (lines 73-121) from the
point where dates and coordinates are coerced: sort by date descending,
assign `df['index'] = range(len(df))` (`List.enum`), geocode up to 10 rows
with missing coordinates, then `dropna(subset=['latitude','longitude'])`
and `fillna(0)` on the capacity.  Crucially the `index` column is assigned
BEFORE the dropna. -/
def prepare (geo : Row → Option (ℚ × ℚ)) (rows : List Row) : List PrepRecord :=
  (geocodePass geo 10 (sortByDateDesc rows).enum).filterMap
    (fun p =>
      match p.2.coords with
      | some c => some { idx := p.1, lat := c.1, lon := c.2, capacity := p.2.capacity.getD 0 }
      | none => none)

/-- The record store the callbacks actually operate on (positional `iloc`
access into the prepared frame). -/
def storeOfPrep (l : List PrepRecord) : List Record :=
  l.map (fun p => { lat := p.lat, lon := p.lon, capacity := p.capacity })

/-- Availability schedule of the retry loop in real time: the loop started
at `start` ticks at times `start + 100·(k+1)`; the map surface and the
coordinate table become available at time `R`. -/
def availAt (start R : ℕ) (c : ℚ × ℚ) : ℕ → Option (ℚ × ℚ) :=
  fun k => if R ≤ start + 100 * (k + 1) then some c else none

/-- A retry sequence started at time `start` for a record at coordinates
`c`, with the map becoming ready at time `R`: the real time at which its
single `setView` fires and the coordinates it sets, or `none` on timeout. -/
def retrySeq (start R : ℕ) (c : ℚ × ℚ) : Option (ℕ × (ℚ × ℚ)) :=
  match cameraRetry (availAt start R c) with
  | some p => some (start + 100 * (p.1 + 1), p.2)
  | none => none

/-- Where the camera ends up after two independent retry sequences: the
`setView` with the later firing time wins (the intervals are uncoordinated,
so the last write is simply the chronologically last one). -/
def lastCamera (a b : Option (ℕ × (ℚ × ℚ))) : Option (ℚ × ℚ) :=
  match a, b with
  | some pa, some pb => if pb.1 < pa.1 then some pa.2 else some pb.2
  | some pa, none => some pa.2
  | none, some pb => some pb.2
  | none, none => none

/-- A geocoder that finds nothing — the behavior of `geocode_location` when
Nominatim has no match or the request fails (lines 17-22). -/
def geoFail : Row → Option (ℚ × ℚ) := fun _ => none

/-- A two-row spreadsheet: the newer row has unparseable coordinates, the
older one is fully valid. -/
def badRows : List Row :=
  [ { date := 10, coords := none, capacity := some 400 }
  , { date := 5, coords := some (1, 2), capacity := some 100 } ]

/-! ## Claim theorems -/

/-- C1, counterexample.  The claim says an out-of-range identifier is
rejected by a silent NoOp with no error raised.  On the five-record
fallback store, selection of identifier 99 makes `update_selected_index`
raise an `IndexError` at the `df.iloc[clicked_index]` lookup — an
exception, not the silent `PreventUpdate` no-op. -/
theorem c1_counterexample :
    update_selected_index store5 (some 99) = SelResult.exn ∧
    SelResult.exn ≠ SelResult.preventUpdate := by
  exact ⟨rfl, by decide⟩

/-- C1, amended.  For every identifier outside the `iloc`-addressable range
(`i ≥ N` or `i < -N`), `update_selected_index` raises (the positional
record lookup on its logging line throws `IndexError`); no new selection
state is produced — the stored state stays unchanged because the callback
aborts — but the failure is an exception rather than a silent NoOp. -/
theorem c1_theorem (s : List Record) (i : ℤ)
    (h : (s.length : ℤ) ≤ i ∨ i + (s.length : ℤ) < 0) :
    update_selected_index s (some i) = SelResult.exn := by
  have hnone : ilocGet s i = none := by
    unfold ilocGet
    rcases h with h1 | h1
    · rw [if_pos (by omega)]
      exact List.get?_eq_none.mpr (by omega)
    · rw [if_neg (by omega), if_neg (by omega)]
  simp [update_selected_index, hnone]

/-- C1, witness: the five-record store with identifier 99. -/
theorem c1_witness :
    ((store5.length : ℤ) ≤ 99 ∨ (99 : ℤ) + (store5.length : ℤ) < 0) ∧
    update_selected_index store5 (some 99) = SelResult.exn :=
  ⟨Or.inl (by decide), c1_theorem store5 99 (Or.inl (by decide))⟩

/-- C2, counterexample.  Two selection clicks 150ms apart (identifiers 0
then 1) on the five-record store: the claim says the second is dropped with
no selection-state change and no re-render, but the server-side pipeline
accepts it — the final `selected-index` is 1, not 0, and the marker layer
was re-rendered again (5 initial markers plus two appended batches of 5). -/
theorem c2_counterexample :
    (runServer store5 ((-1 : ℤ), initialMarkers store5) [(0, 0), (150, 1)]).1 = 1 ∧
    (runServer store5 ((-1 : ℤ), initialMarkers store5) [(0, 0), (150, 1)]).1 ≠ 0 ∧
    (runServer store5 ((-1 : ℤ), initialMarkers store5) [(0, 0), (150, 1)]).2.length = 15 := by
  refine ⟨rfl, by decide, rfl⟩

/-- C2, amended.  The 300ms debounce with its global clock
(`window.lastClickTime`) exists only in the clientside card-style/camera
callback: an invocation within the window is dropped there (no restyle, no
camera, clock untouched).  The server-side selection update and marker
re-render ignore event timing entirely, so a second event inside the
window still changes the Selection State and still re-renders markers. -/
theorem c2_theorem :
    (∀ (s : List Record) (st : ℤ × List Marker) (t t2 : ℕ) (i : ℤ),
        serverStep s st (t, i) = serverStep s st (t2, i)) ∧
    (∀ (lastClick now : ℕ) (sel : ℤ) (n : ℕ) (avail : ℕ → Option (ℚ × ℚ)),
        now - lastClick < 300 →
        clientCallback lastClick now sel n avail =
          { lastClick := lastClick, borders := none, cmds := [] }) := by
  constructor
  · intro s st t t2 i
    rfl
  · intro lc now sel n avail h
    simp [clientCallback, h]

/-- C2, witness: the server step at two different event times, and a
debounced clientside invocation 50ms after the previous accepted one. -/
theorem c2_witness :
    serverStep store5 ((-1 : ℤ), []) (0, 1) = serverStep store5 ((-1 : ℤ), []) (999, 1) ∧
    clientCallback 1000 1050 2 5 (fun _ => none) =
      { lastClick := 1000, borders := none, cmds := [] } :=
  ⟨c2_theorem.1 store5 ((-1 : ℤ), []) 0 999 1,
   c2_theorem.2 1000 1050 2 5 (fun _ => none) (by decide)⟩

/-- C3, code bug at a concrete input.  On a two-row sheet whose newer row
has unparseable coordinates (and geocoding fails), the prepared store keeps
identifier 1 at position 0: identifiers no longer match positions nor cover
`0..N-1`, and clicking the surviving record's card (pattern id 1) makes the
positional `df.iloc[1]` lookup raise on the 1-record frame.  The `index`
column is assigned before `dropna`, so the store invariant breaks. -/
theorem c3_theorem :
    prepare geoFail badRows = [{ idx := 1, lat := 1, lon := 2, capacity := 100 }] ∧
    (prepare geoFail badRows).map PrepRecord.idx ≠
      List.range (prepare geoFail badRows).length ∧
    update_selected_index (storeOfPrep (prepare geoFail badRows)) (some 1) =
      SelResult.exn := by
  refine ⟨rfl, by decide, rfl⟩

/-- C4, code bug at a concrete input.  `update_markers` returns a `Patch`
that only appends: after it runs once on the five-record store the marker
layer holds 10 markers (the 5 initial ones plus 5 appended), not one per
record as claimed. -/
theorem c4_theorem :
    (applyPatch (initialMarkers store5) (update_markers store5 0)).length = 10 ∧
    store5.length = 5 ∧ (10 : ℕ) ≠ 5 := by
  refine ⟨rfl, rfl, by decide⟩

/-- C5, code bug at a concrete input.  Applying the same selection (index
0) twice on the five-record store is not idempotent: each application
appends a further batch of 5 markers, so the rendered marker layer after
the second application (15 markers) differs from the layer after the first
(10 markers). -/
theorem c5_theorem :
    (applyPatch (applyPatch (initialMarkers store5) (update_markers store5 0))
        (update_markers store5 0)).length = 15 ∧
    applyPatch (applyPatch (initialMarkers store5) (update_markers store5 0))
        (update_markers store5 0) ≠
      applyPatch (initialMarkers store5) (update_markers store5 0) := by
  refine ⟨rfl, fun h => absurd (congrArg List.length h) (by decide)⟩

/-! ## Helper lemmas (shared) -/

/-- Round-half-to-even never goes below an integer lower bound of its
argument. -/
theorem le_rhe (n : ℤ) (q : ℚ) (h : (n : ℚ) ≤ q) : n ≤ rhe q := by
  have hf : n ≤ ⌊q⌋ := Int.le_floor.mpr h
  unfold rhe
  split_ifs <;> omega

/-- Round-half-to-even never exceeds an integer upper bound of its
argument. -/
theorem rhe_le (n : ℤ) (q : ℚ) (h : q ≤ (n : ℚ)) : rhe q ≤ n := by
  have hf : ⌊q⌋ ≤ n := by
    have h2 := Int.floor_le_floor h
    rwa [Int.floor_intCast] at h2
  by_cases heq : ⌊q⌋ = n
  · have hq : q = (n : ℚ) := le_antisymm h (by
      calc (n : ℚ) = ((⌊q⌋ : ℤ) : ℚ) := by exact_mod_cast heq.symm
      _ ≤ q := Int.floor_le q)
    unfold rhe
    rw [hq, Int.floor_intCast]
    norm_num
  · have hlt : ⌊q⌋ + 1 ≤ n := by omega
    unfold rhe
    split_ifs <;> omega

/-- Number of `true` entries among the borders computed over `range n`:
one when `sel` lies in `[0, n)`, zero otherwise. -/
theorem count_true_range (sel : ℤ) :
    ∀ n : ℕ, ((List.range n).map (fun i : ℕ => ((i : ℤ) == sel))).count true =
      if 0 ≤ sel ∧ sel < (n : ℤ) then 1 else 0 := by
  intro n
  induction n with
  | zero =>
    rw [if_neg (by omega)]
    rfl
  | succ n ih =>
    rw [List.range_succ, List.map_append, List.count_append, ih]
    simp only [List.map_cons, List.map_nil]
    have hone : (List.count true [((n : ℤ) == sel)]) = if (n : ℤ) = sel then 1 else 0 := by
      by_cases hs : (n : ℤ) = sel
      · simp [hs]
      · simp [hs]
    rw [hone]
    push_cast
    split_ifs <;> omega

/-- C6, confirmed.  Every marker produced by `update_markers` carries
radius `scale_radius(capacity)` — multiplied by the fixed `1.5` emphasis
factor when its position is the selected index — and is recolored red
instead of blue exactly for the selected position; and `scale_radius` is
the claimed linear interpolation with its degenerate cases (NaN capacity,
non-positive capacity, zero store maximum) mapping to the minimum radius. -/
theorem c6_theorem (s : List Record) (sel : ℤ) (i : ℕ) (h : i < s.length) (m : Marker)
    (hm : (update_markers s sel).get? i = some m) :
    (update_markers s sel).length = s.length ∧
    m.radius = (if (i : ℤ) = sel
      then scale_radius (some (s.get ⟨i, h⟩).capacity) 5 20 (storeMax s) * (3 / 2)
      else scale_radius (some (s.get ⟨i, h⟩).capacity) 5 20 (storeMax s)) ∧
    m.color = (if (i : ℤ) = sel then Color.red else Color.blue) ∧
    m.fillColor = m.color ∧
    m.id = i ∧
    (∀ c : ℚ, 0 < c → storeMax s ≠ 0 →
      scale_radius (some c) 5 20 (storeMax s) =
        roundQ2 (5 + (20 - 5) * (c / storeMax s))) ∧
    (∀ c : ℚ, c ≤ 0 → scale_radius (some c) 5 20 (storeMax s) = 5) ∧
    scale_radius none 5 20 (storeMax s) = 5 ∧
    (storeMax s = 0 → ∀ c : Option ℚ, scale_radius c 5 20 (storeMax s) = 5) := by
  have hget : (update_markers s sel).get? i =
      some (mkMarker (storeMax s) sel i (s.get ⟨i, h⟩)) := by
    rw [update_markers, List.get?_map, List.get?_enum, List.get?_eq_get h]
    rfl
  rw [hget] at hm
  have hmeq : m = mkMarker (storeMax s) sel i (s.get ⟨i, h⟩) := (Option.some_injective _ hm).symm
  subst hmeq
  refine ⟨by simp [update_markers, List.enum_length], ?_, ?_, ?_, ?_, ?_, ?_, ?_, ?_⟩
  · by_cases hs : (i : ℤ) = sel <;> simp [mkMarker, hs]
  · by_cases hs : (i : ℤ) = sel <;> simp [mkMarker, hs]
  · by_cases hs : (i : ℤ) = sel <;> simp [mkMarker, hs]
  · simp [mkMarker]
  · intro c hc hM
    simp only [scale_radius, if_neg hM]
    rw [if_neg (not_le.mpr hc)]
  · intro c hc
    by_cases hM : storeMax s = 0
    · simp [scale_radius, hM]
    · simp only [scale_radius, if_neg hM]
      rw [if_pos hc]
  · by_cases hM : storeMax s = 0 <;> simp [scale_radius, hM]
  · intro hM c
    simp [scale_radius, hM]

/-- C6, witness: the five-record store with identifier 2 selected; the
marker at position 2 carries the emphasized radius
`scale_radius(capacity) × 1.5` and is red. -/
theorem c6_witness :
    2 < store5.length ∧
    (update_markers store5 2).length = store5.length ∧
    (mkMarker (storeMax store5) 2 2 (store5.get ⟨2, by decide⟩)).radius =
      (if (2 : ℤ) = 2
        then scale_radius (some (store5.get ⟨2, by decide⟩).capacity) 5 20 (storeMax store5) * (3 / 2)
        else scale_radius (some (store5.get ⟨2, by decide⟩).capacity) 5 20 (storeMax store5)) ∧
    (mkMarker (storeMax store5) 2 2 (store5.get ⟨2, by decide⟩)).color =
      (if (2 : ℤ) = 2 then Color.red else Color.blue) := by
  have h2 : 2 < store5.length := by decide
  have hm : (update_markers store5 2).get? 2 =
      some (mkMarker (storeMax store5) 2 2 (store5.get ⟨2, h2⟩)) := by
    rw [update_markers, List.get?_map, List.get?_enum, List.get?_eq_get h2]
    rfl
  have happ := c6_theorem store5 2 2 h2
    (mkMarker (storeMax store5) 2 2 (store5.get ⟨2, h2⟩)) hm
  exact ⟨h2, happ.1, happ.2.1, happ.2.2.1⟩

/-- C7, confirmed.  The card borders the clientside callback computes have
exactly one highlighted card when the selected index is a valid position
(`0 ≤ sel < n`), and zero highlighted cards when the selection is none
(the `selected-index` store holds its initial `-1`, or any negative). -/
theorem c7_theorem (n : ℕ) (sel : ℤ) :
    (0 ≤ sel → sel < (n : ℤ) → (cardBorders n sel).count true = 1) ∧
    (sel < 0 → (cardBorders n sel).count true = 0) := by
  constructor
  · intro h1 h2
    rw [cardBorders, count_true_range]
    rw [if_pos ⟨h1, h2⟩]
  · intro h1
    rw [cardBorders, count_true_range]
    rw [if_neg (by omega)]

/-- C7, witness: five cards with selection 2 (one highlight) and with the
initial `-1` selection (no highlight). -/
theorem c7_witness :
    ((0 : ℤ) ≤ 2 ∧ (2 : ℤ) < 5 ∧ (cardBorders 5 2).count true = 1) ∧
    ((-1 : ℤ) < 0 ∧ (cardBorders 5 (-1)).count true = 0) :=
  ⟨⟨by decide, by decide, (c7_theorem 5 2).1 (by decide) (by decide)⟩,
   ⟨by decide, (c7_theorem 5 (-1)).2 (by decide)⟩⟩

/-- C10, confirmed.  With the default radii `[5, 20]`, `scale_radius`
returns a two-decimal value (an integer number of hundredths) in
`[5, 20]` whenever `0 < capacity ≤ max_capacity`, and returns exactly the
minimum radius `5` on every degenerate input: NaN capacity, non-positive
capacity, or `max_capacity = 0`. -/
theorem c10_theorem (c M : ℚ) :
    (0 < c → c ≤ M →
      5 ≤ scale_radius (some c) 5 20 M ∧
      scale_radius (some c) 5 20 M ≤ 20 ∧
      ∃ k : ℤ, scale_radius (some c) 5 20 M = (k : ℚ) / 100) ∧
    scale_radius none 5 20 M = 5 ∧
    (c ≤ 0 → scale_radius (some c) 5 20 M = 5) ∧
    scale_radius (some c) 5 20 0 = 5 := by
  refine ⟨?_, ?_, ?_, ?_⟩
  · intro hc hcM
    have hM : 0 < M := lt_of_lt_of_le hc hcM
    have hMne : M ≠ 0 := ne_of_gt hM
    have ht0 : 0 < c / M := div_pos hc hM
    have ht1 : c / M ≤ 1 := (div_le_one hM).mpr hcM
    have hsr : scale_radius (some c) 5 20 M = roundQ2 (5 + (20 - 5) * (c / M)) := by
      simp only [scale_radius, if_neg hMne]
      rw [if_neg (not_le.mpr hc)]
    have h100 : ((500 : ℤ) : ℚ) ≤ (5 + (20 - 5) * (c / M)) * 100 := by push_cast; nlinarith
    have h200 : (5 + (20 - 5) * (c / M)) * 100 ≤ ((2000 : ℤ) : ℚ) := by push_cast; nlinarith
    have hlow := le_rhe 500 ((5 + (20 - 5) * (c / M)) * 100) h100
    have hhigh := rhe_le 2000 ((5 + (20 - 5) * (c / M)) * 100) h200
    have hlowQ : ((500 : ℤ) : ℚ) ≤ ((rhe ((5 + (20 - 5) * (c / M)) * 100) : ℤ) : ℚ) := by
      exact_mod_cast hlow
    have hhighQ : ((rhe ((5 + (20 - 5) * (c / M)) * 100) : ℤ) : ℚ) ≤ ((2000 : ℤ) : ℚ) := by
      exact_mod_cast hhigh
    refine ⟨?_, ?_, ⟨rhe ((5 + (20 - 5) * (c / M)) * 100), ?_⟩⟩
    · rw [hsr]
      unfold roundQ2
      push_cast at hlowQ
      linarith
    · rw [hsr]
      unfold roundQ2
      push_cast at hhighQ
      linarith
    · rw [hsr]
      rfl
  · by_cases hM : M = 0 <;> simp [scale_radius, hM]
  · intro hc
    by_cases hM : M = 0
    · simp [scale_radius, hM]
    · simp only [scale_radius, if_neg hM]
      rw [if_pos hc]
  · simp [scale_radius]

/-- C10, witness: capacity 10 with store maximum 20 gives `12.5`, inside
`[5, 20]` and a whole number of hundredths. -/
theorem c10_witness :
    (0 : ℚ) < 10 ∧ (10 : ℚ) ≤ 20 ∧
    (5 ≤ scale_radius (some 10) 5 20 20 ∧ scale_radius (some 10) 5 20 20 ≤ 20 ∧
      ∃ k : ℤ, scale_radius (some 10) 5 20 20 = (k : ℚ) / 100) :=
  ⟨by norm_num, by norm_num, (c10_theorem 10 20).1 (by norm_num) (by norm_num)⟩

/-- The retry loop fires at the first tick whose guard finds the map and
the coordinate entry ready, provided that tick is within the attempt
bound. -/
theorem cameraRetryAux_fires (avail : ℕ → Option (ℚ × ℚ)) (k : ℕ) (c : ℚ × ℚ)
    (hk : avail k = some c) (hnone : ∀ j, j < k → avail j = none) (hb : k ≤ 50) :
    ∀ fuel m, m ≤ k → k - m < fuel → cameraRetryAux avail fuel m = some (k, c) := by
  intro fuel
  induction fuel with
  | zero => intro m hm hlt; omega
  | succ fuel ih =>
    intro m hm hlt
    by_cases hmk : m = k
    · subst hmk
      simp [cameraRetryAux, hk]
    · have hmlt : m < k := lt_of_le_of_ne hm hmk
      have hnm : avail m = none := hnone m hmlt
      simp only [cameraRetryAux, hnm]
      rw [if_neg (by omega)]
      exact ih (m + 1) (by omega) (by omega)

/-- When the map never becomes ready within the attempt bound, the retry
loop clears its interval without firing. -/
theorem cameraRetryAux_timeout (avail : ℕ → Option (ℚ × ℚ))
    (hall : ∀ j, j ≤ 50 → avail j = none) :
    ∀ fuel m, m ≤ 50 → 50 - m < fuel → cameraRetryAux avail fuel m = none := by
  intro fuel
  induction fuel with
  | zero => intro m hm hlt; omega
  | succ fuel ih =>
    intro m hm hlt
    have hnm : avail m = none := hall m hm
    simp only [cameraRetryAux, hnm]
    by_cases h50 : 50 ≤ m
    · rw [if_pos h50]
    · rw [if_neg h50]
      exact ih (m + 1) (by omega) (by omega)

/-- Whatever the retry loop fires was read from the readiness guard at the
firing tick. -/
theorem cameraRetryAux_coords (avail : ℕ → Option (ℚ × ℚ)) :
    ∀ fuel m k c, cameraRetryAux avail fuel m = some (k, c) → avail k = some c := by
  intro fuel
  induction fuel with
  | zero =>
    intro m k c h
    simp [cameraRetryAux] at h
  | succ fuel ih =>
    intro m k c h
    simp only [cameraRetryAux] at h
    cases hv : avail m with
    | some c2 =>
      rw [hv] at h
      simp only [Option.some.injEq, Prod.mk.injEq] at h
      obtain ⟨hk, hc⟩ := h
      subst hk
      subst hc
      exact hv
    | none =>
      rw [hv] at h
      by_cases h50 : 50 ≤ m
      · rw [if_pos h50] at h
        cases h
      · rw [if_neg h50] at h
        exact ih (m + 1) k c h

/-- C8, counterexample.  The claim says every Selection State change to a
present `B` issues exactly one viewport command for `B`.  Concrete trace
with the map already ready: a click at t=1000 (the clientside invocation
still sees the pre-click `selected_index = -1`) is accepted and issues no
command; the `selected-index` change to 2 reaches the callback at t=1050,
inside the 300ms window, and is debounced wholesale — so the change
`none → 2` issues zero viewport commands, not one. -/
theorem c8_counterexample :
    (clientCallback 0 1000 (-1) 5 (fun _ => some (1, 2))).lastClick = 1000 ∧
    (clientCallback 0 1000 (-1) 5 (fun _ => some (1, 2))).cmds = [] ∧
    clientCallback 1000 1050 2 5 (fun _ => some (1, 2)) =
      { lastClick := 1000, borders := none, cmds := [] } ∧
    (clientCallback 1000 1050 2 5 (fun _ => some (1, 2))).cmds.length ≠ 1 := by
  refine ⟨rfl, rfl, rfl, by decide⟩

/-- C8, amended.  Per clientside invocation: a debounced invocation (less
than 300ms after the previous accepted one) issues no viewport command at
all, even if it carries a fresh selection; an invocation with a negative
`selected_index` issues none; an accepted invocation with `selected_index
≥ 0` whose readiness guard first succeeds at tick `k ≤ 50` issues exactly
one `setView(coords, 8)`; if the guard never succeeds within the 50-attempt
counter bound it gives up and issues none; and no invocation ever issues
more than one command. -/
theorem c8_theorem :
    (∀ (lc now : ℕ) (sel : ℤ) (n : ℕ) (avail : ℕ → Option (ℚ × ℚ)),
        now - lc < 300 → (clientCallback lc now sel n avail).cmds = []) ∧
    (∀ (lc now : ℕ) (sel : ℤ) (n : ℕ) (avail : ℕ → Option (ℚ × ℚ)),
        sel < 0 → (clientCallback lc now sel n avail).cmds = []) ∧
    (∀ (lc now : ℕ) (sel : ℤ) (n : ℕ) (avail : ℕ → Option (ℚ × ℚ)) (k : ℕ) (c : ℚ × ℚ),
        300 ≤ now - lc → 0 ≤ sel →
        avail k = some c → (∀ j, j < k → avail j = none) → k ≤ 50 →
        (clientCallback lc now sel n avail).cmds = [Cmd.setView c 8]) ∧
    (∀ (lc now : ℕ) (sel : ℤ) (n : ℕ) (avail : ℕ → Option (ℚ × ℚ)),
        (∀ j, j ≤ 50 → avail j = none) →
        (clientCallback lc now sel n avail).cmds = []) ∧
    (∀ (lc now : ℕ) (sel : ℤ) (n : ℕ) (avail : ℕ → Option (ℚ × ℚ)),
        (clientCallback lc now sel n avail).cmds.length ≤ 1) := by
  have hcam1 : ∀ (avail : ℕ → Option (ℚ × ℚ)), (cameraCmds avail).length ≤ 1 := by
    intro avail
    unfold cameraCmds
    cases cameraRetry avail <;> simp
  refine ⟨?_, ?_, ?_, ?_, ?_⟩
  · intro lc now sel n avail h
    simp [clientCallback, h]
  · intro lc now sel n avail h
    by_cases hd : now - lc < 300
    · simp [clientCallback, hd]
    · simp only [clientCallback, if_neg hd]
      rw [if_neg (not_le.mpr h)]
  · intro lc now sel n avail k c hacc hsel hk hnone hb
    have hd : ¬ now - lc < 300 := by omega
    simp only [clientCallback, if_neg hd]
    rw [if_pos hsel]
    unfold cameraCmds cameraRetry
    rw [cameraRetryAux_fires avail k c hk hnone hb 52 0 (by omega) (by omega)]
  · intro lc now sel n avail hall
    by_cases hd : now - lc < 300
    · simp [clientCallback, hd]
    · simp only [clientCallback, if_neg hd]
      by_cases hsel : 0 ≤ sel
      · rw [if_pos hsel]
        unfold cameraCmds cameraRetry
        rw [cameraRetryAux_timeout avail hall 52 0 (by omega) (by omega)]
      · rw [if_neg hsel]
  · intro lc now sel n avail
    by_cases hd : now - lc < 300
    · simp [clientCallback, hd]
    · simp only [clientCallback, if_neg hd]
      by_cases hsel : 0 ≤ sel
      · rw [if_pos hsel]
        exact hcam1 avail
      · rw [if_neg hsel]
        simp

/-- C8, witness: an accepted invocation for selection 2 whose map becomes
ready at tick 3 issues the single `setView` at zoom 8. -/
theorem c8_witness :
    (300 : ℕ) ≤ 1000 - 0 ∧ (0 : ℤ) ≤ 2 ∧
    (clientCallback 0 1000 2 5 (fun k => if k = 3 then some (1, 2) else none)).cmds =
      [Cmd.setView (1, 2) 8] :=
  ⟨by decide, by decide,
   c8_theorem.2.2.1 0 1000 2 5 (fun k => if k = 3 then some (1, 2) else none) 3 (1, 2)
     (by decide) (by decide) (by decide) (by decide) (by decide)⟩

/-- C9, counterexample.  The claim says a pending retry sequence for a
stale selection is superseded by a newer one.  Concrete trace: the stale
sequence starts at t=0 (for the record at coordinates `(1, 2)`), the newer
one at t=350 (coordinates `(3, 4)`), and the map becomes ready at t=420.
The newer sequence fires at t=450; the stale interval was never cleared
and fires at t=500, so the camera ends on the no-longer-selected record. -/
theorem c9_counterexample :
    retrySeq 0 420 (1, 2) = some (500, (1, 2)) ∧
    retrySeq 350 420 (3, 4) = some (450, (3, 4)) ∧
    (450 : ℕ) < 500 ∧
    lastCamera (retrySeq 0 420 (1, 2)) (retrySeq 350 420 (3, 4)) = some (1, 2) ∧
    ((1 : ℚ), (2 : ℚ)) ≠ ((3 : ℚ), (4 : ℚ)) := by
  refine ⟨rfl, rfl, by decide, rfl, by decide⟩

/-- C9, amended.  Retry sequences are never cancelled: each started
interval runs independently to its own firing (or timeout), its `setView`
always carries the coordinates of the selection it was started for, and
whenever the stale sequence's firing time exceeds the newer one's, the
camera ends on the stale selection's coordinates. -/
theorem c9_theorem :
    (∀ (start R : ℕ) (c : ℚ × ℚ) (p : ℕ × (ℚ × ℚ)),
        retrySeq start R c = some p → p.2 = c) ∧
    (∀ (sA sB R : ℕ) (cA cB : ℚ × ℚ) (pA pB : ℕ × (ℚ × ℚ)),
        retrySeq sA R cA = some pA → retrySeq sB R cB = some pB →
        pB.1 < pA.1 →
        lastCamera (retrySeq sA R cA) (retrySeq sB R cB) = some pA.2) := by
  constructor
  · intro start R c p h
    unfold retrySeq at h
    cases hr : cameraRetry (availAt start R c) with
    | some q =>
      rw [hr] at h
      have hq : availAt start R c q.1 = some q.2 := by
        obtain ⟨k, c2⟩ := q
        exact cameraRetryAux_coords (availAt start R c) 52 0 k c2 hr
      unfold availAt at hq
      simp only [Option.some.injEq] at h
      by_cases hcond : R ≤ start + 100 * (q.1 + 1)
      · rw [if_pos hcond] at hq
        have : q.2 = c := (Option.some_injective _ hq).symm
        rw [← h]
        exact this
      · rw [if_neg hcond] at hq
        cases hq
    | none =>
      rw [hr] at h
      cases h
  · intro sA sB R cA cB pA pB hA hB hlt
    rw [hA, hB]
    simp only [lastCamera]
    rw [if_pos hlt]

/-- C9, witness: the general non-cancellation statement applied to a
concrete pair of sequences (starts 0 and 350, readiness at 420). -/
theorem c9_witness :
    retrySeq 0 420 ((5 : ℚ), (6 : ℚ)) = some (500, (5, 6)) ∧
    retrySeq 350 420 ((7 : ℚ), (8 : ℚ)) = some (450, (7, 8)) ∧
    (450 : ℕ) < 500 ∧
    lastCamera (retrySeq 0 420 (5, 6)) (retrySeq 350 420 (7, 8)) = some ((5 : ℚ), (6 : ℚ)) ∧
    ((5 : ℚ), (6 : ℚ)) = (5, 6) :=
  ⟨rfl, rfl, by decide,
   c9_theorem.2 0 350 420 (5, 6) (7, 8) (500, (5, 6)) (450, (7, 8)) rfl rfl (by decide),
   c9_theorem.1 0 420 (5, 6) (500, (5, 6)) rfl⟩
